import Mathlib

/-!
Verification development for the `delve` session manager of
`tb0hdan/remote-debugger-mcp` (file `pkg/tools/delve/delve.go`).

The Go code is shallowly embedded: durations are `Int` nanoseconds
(Go `time.Duration` is an int64 nanosecond count), timestamps are `Int`
nanoseconds, the session map is an association list with unique keys
(a Go `map[string]*DelveSession`), and the OS-level effects of teardown
(signals, pipe closes, exit-status reclamation) are modelled as explicit
action lists applied to a small process-table state.
-/

namespace Delve

/-! ## Duration constants (delve.go lines 23-29) -/

/-- One millisecond in nanoseconds (Go `time.Millisecond`). -/
def millisecond : Int := 1000000

/-- One second in nanoseconds (Go `time.Second`). -/
def second : Int := 1000000000

/-- One minute in nanoseconds (Go `time.Minute`). -/
def minute : Int := 60000000000

/-- `sessionStartupDelay = 500 * time.Millisecond` (delve.go line 24). -/
def sessionStartupDelay : Int := 500 * millisecond

/-- `commandTimeout = 5 * time.Second` (delve.go line 25). -/
def commandTimeout : Int := 5 * second

/-- `disconnectDelay = 100 * time.Millisecond` (delve.go line 26). -/
def disconnectDelay : Int := 100 * millisecond

/-- `cleanupInterval = 5 * time.Minute` (delve.go line 27). -/
def cleanupInterval : Int := 5 * minute

/-- `sessionMaxIdleTime = 30 * time.Minute` (delve.go line 28). -/
def sessionMaxIdleTime : Int := 30 * minute

/-! ## Process-level actions and the process-table model

Teardown in the source is a straight-line sequence of process-level
operations.  We record that sequence as data, and give it a semantics on
a tiny process-table state, so that claims about child liveness, zombie
entries and signal scope become statements about the action list. -/

/-- One process-level operation performed by the Go code on a session
subprocess.  `killProcess` is `cmd.Process.Kill()`: an unconditional
SIGKILL delivered to the direct child only.  `signalGroup` and `wait`
(`cmd.Wait()`, which consumes the exit status) are part of the vocabulary
so that their absence from the code is expressible; the delve session
code never emits them. -/
inductive ProcAction where
  | writeStdin (text : String)
  | sleep (d : Int)
  | closeStdin
  | killProcess
  | signalGroup
  | wait
  deriving Repr, DecidableEq

/-- Process-table state of one spawned child: `running` is true while the
process executes; `reaped` is true once its exit status has been consumed
(by `wait`).  A dead, unreaped process is a zombie process-table entry. -/
structure ProcState where
  running : Bool
  reaped : Bool
  deriving Repr, DecidableEq

/-- A process-table entry that is dead but whose exit status was never
consumed: a zombie. -/
def ProcState.zombie (p : ProcState) : Bool := !p.running && !p.reaped

/-- Effect of one process-level action on the child.  SIGKILL cannot be
caught, so `killProcess` (and a group-wide kill) ends execution; only
`wait` (which blocks until the child exits and then consumes the exit
status) clears the zombie entry.  Writing text, sleeping and closing
stdin do not change process-table state (an `exit` directive may make
the debugger quit on its own, which would only set `running := false`,
as `killProcess` does anyway right after). -/
def applyAction (p : ProcState) : ProcAction → ProcState
  | .writeStdin _ => p
  | .sleep _ => p
  | .closeStdin => p
  | .killProcess => { p with running := false }
  | .signalGroup => { p with running := false }
  | .wait => { running := false, reaped := true }

/-- Apply a sequence of process-level actions in order. -/
def applyActions (p : ProcState) (acts : List ProcAction) : ProcState :=
  acts.foldl applyAction p

/-- The teardown sequence shared verbatim by `disconnectSession`
(delve.go lines 250-262) and the per-victim body of
`cleanupStaleSessions` (lines 131-140), for a session whose pipes and
process handle are non-nil (every session built by `connectSession` has
them): write `"exit\n"` to stdin, sleep `disconnectDelay`, close stdin,
then `cmd.Process.Kill()`.  No `cmd.Wait()` and no process-group signal
appears anywhere in the session code. -/
def teardownActions : List ProcAction :=
  [.writeStdin "exit\n", .sleep disconnectDelay, .closeStdin, .killProcess]

/-! ## Spawn configuration (connectSession, delve.go lines 149-189) -/

/-- `fmt.Sprintf("%s:%d", host, port)` (delve.go line 150). -/
def addrString (host : String) (port : Int) : String :=
  host ++ ":" ++ toString port

/-- How a session child process is spawned.  `setNewProcessGroup` models
`SysProcAttr.Setpgid`; `exec.CommandContext` is used with no
`SysProcAttr` at all (delve.go line 153), so the Go default `false`
applies and the child stays in the parent process group. -/
structure SpawnConfig where
  exe : String
  args : List String
  setNewProcessGroup : Bool
  deriving Repr, DecidableEq

/-- The spawn configuration built by `connectSession` (delve.go line 153):
`exec.CommandContext(ctx, "dlv", "connect", addr)` with no
`SysProcAttr`. -/
def connectSpawnConfig (host : String) (port : Int) : SpawnConfig :=
  { exe := "dlv", args := ["connect", addrString host port]
    setNewProcessGroup := false }

/-! ## Sessions, the registry and the world -/

/-- `DelveSession` (delve.go lines 56-66).  The pipe handles and scanner
are identified by the process id `pid`; `lastUsed` is the `time.Time`
field as nanoseconds. -/
structure DelveSession where
  pid : Nat
  host : String
  port : Int
  lastUsed : Int
  deriving Repr, DecidableEq

/-- Generic association-list lookup (the read side of a Go map). -/
def lookupKey {β : Type} : List (String × β) → String → Option β
  | [], _ => none
  | p :: rest, id => if p.1 = id then some p.2 else lookupKey rest id

@[simp] theorem lookupKey_nil {β : Type} (id : String) :
    lookupKey ([] : List (String × β)) id = none := rfl

@[simp] theorem lookupKey_cons {β : Type} (p : String × β)
    (rest : List (String × β)) (id : String) :
    lookupKey (p :: rest) id =
      if p.1 = id then some p.2 else lookupKey rest id := rfl

/-- Go `delete(m, id)` on an association list with unique keys. -/
def eraseKey {β : Type} (l : List (String × β)) (id : String) :
    List (String × β) :=
  l.filter (fun p => p.1 ≠ id)

/-- In-place mutation of the session a key points at (the Go map stores a
pointer, so mutating the struct updates what every lookup of that key
sees). -/
def updateKey {β : Type} (l : List (String × β)) (id : String) (v : β) :
    List (String × β) :=
  l.map (fun p => if p.1 = id then (p.1, v) else p)

/-- The whole mutable state of the tool plus the OS process table:
`sessions` is the `Tool.sessions` map, `procs` maps spawned pids to their
process-table state, and `nextPid` models OS pid allocation so that "a
subprocess was spawned" is observable as a change to `nextPid`/`procs`. -/
structure World where
  sessions : List (String × DelveSession)
  procs : List (Nat × ProcState)
  nextPid : Nat
  deriving Repr, DecidableEq

/-- Apply a teardown action list to one pid in the process table. -/
def updateProc (ps : List (Nat × ProcState)) (pid : Nat)
    (acts : List ProcAction) : List (Nat × ProcState) :=
  ps.map (fun q => if q.1 = pid then (q.1, applyActions q.2 acts) else q)

/-! ## The command/response framer (executeCommand, delve.go lines 192-238) -/

/-- Whether `pat` occurs as a contiguous run inside `l`. -/
def listContains (pat : List Char) : List Char → Bool
  | [] => List.isPrefixOf pat []
  | c :: rest => List.isPrefixOf pat (c :: rest) || listContains pat rest

/-- Go `strings.Contains s pat` (byte-level substring; our lines are
character lists, which agrees for the ASCII patterns used here). -/
def containsSubstr (s pat : String) : Bool :=
  listContains pat.toList s.toList

/-- The prompt heuristic of the reader goroutine (delve.go line 216):
`strings.Contains(line, "(dlv)") || strings.Contains(line, ">")`. -/
def isPromptLine (line : String) : Bool :=
  containsSubstr line "(dlv)" || containsSubstr line ">"

/-- How the reader goroutine loop ended: it found a prompt line and sent
`done <- true`, or the output stream ended (scanner loop fell through)
and it sent `done <- false`. -/
inductive ReadOutcome where
  | promptFound
  | streamEnded
  deriving Repr, DecidableEq

/-- The buffer built from a list of lines, each followed by a newline
(what `output.WriteString(line); output.WriteString("\n")` accumulates,
delve.go lines 212-213). -/
def joinLines : List String → String
  | [] => ""
  | l :: ls => l ++ "\n" ++ joinLines ls

/-- The reader goroutine loop (delve.go lines 208-225) over the sequence
of lines it gets to scan: append each line plus a newline to the buffer,
stopping right after the first line that satisfies `isPromptLine`. -/
def readResponse : List String → String × ReadOutcome
  | [] => ("", .streamEnded)
  | line :: rest =>
    if isPromptLine line then (line ++ "\n", .promptFound)
    else
      let r := readResponse rest
      (line ++ "\n" ++ r.1, r.2)

/-- Behaviour of the subprocess pipes during one `executeCommand` call:
whether the stdin write fails, the output lines that arrive within the
`commandTimeout` window, whether the output stream reaches end-of-stream
inside that window, and the scanner error reported at end-of-stream. -/
structure PipeModel where
  writeError : Option String
  linesInWindow : List String
  streamEndsInWindow : Bool
  scanError : Option String
  deriving Repr, DecidableEq

/-- Result of one `executeCommand` call: the mutated session struct (the
registry holds a pointer, so the mutation is visible through the map),
the texts written to the subprocess stdin during the call, the output
returned, and the error (as its Go message), `none` on success. -/
structure ExecResult where
  session : DelveSession
  stdinWritten : List String
  output : String
  errMsg : Option String
  deriving Repr, DecidableEq

/-- `executeCommand` (delve.go lines 192-238), under the session lock:
set `lastUsed = time.Now()` (line 196) first; write `command + "\n"` to
stdin (line 199), failing with a wrapped error; then the reader goroutine
collects lines (lines 208-225) while the main goroutine selects between
`done` and a `commandTimeout` timer (lines 228-235): prompt found within
the window means success with the collected buffer; end-of-stream within
the window returns the full buffer with the scanner error if any, else
success; otherwise the timer fires and the partial buffer is returned
with the error `command timed out`. -/
def executeCommand (session : DelveSession) (command : String) (now : Int)
    (pipe : PipeModel) : ExecResult :=
  let session := { session with lastUsed := now }
  match pipe.writeError with
  | some e =>
    { session, stdinWritten := [], output := ""
      errMsg := some ("failed to send command: " ++ e) }
  | none =>
    let r := readResponse pipe.linesInWindow
    { session
      stdinWritten := [command ++ "\n"]
      output := r.1
      errMsg :=
        match r.2 with
        | .promptFound => none
        | .streamEnded =>
          if pipe.streamEndsInWindow then pipe.scanError
          else some "command timed out" }

/-! ## Tool input (delve.go lines 31-39) -/

/-- The `Input` struct (delve.go lines 31-39), after JSON decoding; Go
zero values (`""`, `0`) stand for absent fields. -/
structure Input where
  host : String
  port : Int
  command : String
  sessionID : String
  action : String
  maxLines : Int
  offset : Int
  deriving Repr, DecidableEq

/-! ## Handlers (delve.go lines 75-105, 240-395) -/

/-- Errors a handler can return, by taxonomy; each constructor carries the
session id or message the Go `fmt.Errorf` call interpolates. -/
inductive HandlerError where
  | alreadyExists (sessionID : String)
  | notFound (sessionID : String)
  | commandFailed (msg : String)
  | unsupportedAction (action : String)
  deriving Repr, DecidableEq

/-- Spawn one child process: a fresh pid appears in the process table,
running and not reaped. -/
def spawnProc (w : World) : World × Nat :=
  ({ w with
      procs := (w.nextPid, { running := true, reaped := false }) :: w.procs
      nextPid := w.nextPid + 1 }, w.nextPid)

/-- `connectSession` (delve.go lines 149-189): build the command for
`connectSpawnConfig`, start it, record the session with
`lastUsed = time.Now()`; the `sessionStartupDelay` sleep has no state
effect.  Pipe-creation and start failures are OS conditions outside this
embedding; no claim exercises them. -/
def connectSession (w : World) (host : String) (port : Int) (now : Int) :
    World × DelveSession :=
  let s := spawnProc w
  (s.1, { pid := s.2, host, port, lastUsed := now })

/-- `handleConnect` (delve.go lines 282-309): under the registry write
lock, fail with `alreadyExists` if the id is mapped, otherwise spawn a
session and insert it. -/
def handleConnect (w : World) (sessionID host : String) (port : Int)
    (now : Int) : World × Except HandlerError Unit :=
  match lookupKey w.sessions sessionID with
  | some _ => (w, .error (.alreadyExists sessionID))
  | none =>
    let c := connectSession w host port now
    ({ c.1 with sessions := (sessionID, c.2) :: c.1.sessions }, .ok ())

/-- `disconnectSession` (delve.go lines 241-265): under the registry
write lock, fail with `notFound` if the id is unmapped; otherwise run the
teardown sequence on the child and delete the map entry. -/
def disconnectSession (w : World) (sessionID : String) :
    World × Except HandlerError Unit :=
  match lookupKey w.sessions sessionID with
  | none => (w, .error (.notFound sessionID))
  | some s =>
    ({ w with
        sessions := eraseKey w.sessions sessionID
        procs := updateProc w.procs s.pid teardownActions }, .ok ())

/-! ## Pagination and the command handler (delve.go lines 331-395) -/

/-- `types.MaxDefaultLines`.  Modelled from the spec: the `pkg/types`
package is not in the sources provided; the field comment on
`Input.MaxLines` (delve.go line 37) and the project notes give the
default as 1000.  No claim depends on this value. -/
def maxDefaultLines : Int := 1000

/-- The pagination block (delve.go lines 361-376): split on newlines,
then slice `lines[offset:offset+maxLines]` clamped to the total, setting
`truncated` exactly when the unclamped end does not exceed the total.
Returns (shown lines, total line count, truncated flag). -/
def paginate (output : String) (maxLines offset : Nat) :
    List String × Nat × Bool :=
  let lines := output.splitOn "\n"
  let totalLines := lines.length
  if offset < totalLines then
    if offset + maxLines > totalLines then
      (lines.drop offset, totalLines, false)
    else
      ((lines.drop offset).take maxLines, totalLines, true)
  else
    ([], totalLines, false)

/-- The result text of `handleCommand` (delve.go lines 380-384). -/
def commandResultText (sessionID command : String) (offset : Nat)
    (shown : List String) (totalLines : Nat) (truncated : Bool) : String :=
  let header := "Session " ++ sessionID ++ " - Command: " ++ command ++ "\n"
  let header :=
    if truncated then
      header ++ "[Showing lines " ++ toString (offset + 1) ++ "-" ++
        toString (offset + shown.length) ++ " of " ++ toString totalLines ++
        " total lines. Use offset parameter to view more.]\n"
    else header
  header ++ "\n" ++ (String.intercalate "\n" shown).trim

/-- `handleCommand` (delve.go lines 331-395): read-locked lookup failing
with `notFound` for an unmapped id; otherwise default the command text to
`help`, run `executeCommand` (whose `lastUsed` mutation is visible
through the map pointer even on failure), and on any error discard the
output and return only the wrapped error; on success paginate and format
the output. -/
def handleCommand (w : World) (input : Input) (now : Int)
    (pipe : PipeModel) : World × Except HandlerError String :=
  match lookupKey w.sessions input.sessionID with
  | none => (w, .error (.notFound input.sessionID))
  | some s =>
    let command := if input.command = "" then "help" else input.command
    let r := executeCommand s command now pipe
    ({ w with sessions := updateKey w.sessions input.sessionID r.session },
      match r.errMsg with
      | some e => .error (.commandFailed e)
      | none =>
        let maxLines := if input.maxLines > 0 then input.maxLines.toNat
                        else maxDefaultLines.toNat
        let offset := if input.offset > 0 then input.offset.toNat else 0
        let p := paginate r.output maxLines offset
        .ok (commandResultText input.sessionID command offset p.1 p.2.1 p.2.2))

/-! ## Routing and defaults (DelveHandler, delve.go lines 75-105) -/

/-- Where `DelveHandler` sends a request after computing defaults:
either the session subsystem (`handleSessionOperation`) or the
session-less single-command path (`handleSingleCommand`, which spawns a
one-shot subprocess and uses no session registry at all). -/
inductive Route where
  | sessionOp (sessionID host : String) (port : Int) (action : String)
  | singleCommand (host : String) (port : Int)
  deriving Repr, DecidableEq

/-- The defaulting and branch logic of `DelveHandler` (delve.go lines
83-104), after validation: `host` defaults to `localhost`, `port` to
`2345`, `action` to `command`; requests with a non-empty `session_id` go
to the session subsystem and all others to the single-command path.  The
`callerConnectionID` argument is the `*mcp.ServerSession` parameter,
which the Go handler binds to `_` and never uses. -/
def delveHandlerRoute (_callerConnectionID : String) (input : Input) : Route :=
  let host := if input.host = "" then "localhost" else input.host
  let port := if input.port = 0 then 2345 else input.port
  let action := if input.action = "" then "command" else input.action
  if input.sessionID ≠ "" then
    .sessionOp input.sessionID host port action
  else
    .singleCommand host port

/-! ## The idle reaper (cleanupStaleSessions, delve.go lines 121-146) -/

/-- The staleness test (delve.go line 129):
`now.Sub(session.lastUsed) > sessionMaxIdleTime`. -/
def isStale (now : Int) (s : DelveSession) : Bool :=
  now - s.lastUsed > sessionMaxIdleTime

/-- One sweep of the reaper loop body (delve.go lines 126-144), under the
registry write lock: every stale session is torn down (its child gets the
same teardown sequence as `disconnectSession`) and deleted from the map;
non-stale sessions are untouched. -/
def cleanupStaleSweep (now : Int) (w : World) : World :=
  { sessions := w.sessions.filter (fun p => !isStale now p.2)
    procs := w.sessions.foldl
      (fun ps p =>
        if isStale now p.2 then updateProc ps p.2.pid teardownActions else ps)
      w.procs
    nextPid := w.nextPid }

/-- Instant of the k-th ticker firing: the `time.NewTicker` created at
reaper start `t0` delivers at `t0 + (k+1) * cleanupInterval`. -/
def reaperSweepTime (t0 : Int) (k : Nat) : Int :=
  t0 + (k + 1) * cleanupInterval

/-- The reaper loop (delve.go lines 121-146) after `k` ticks: a sweep at
each successive ticker firing, forever (`for range ticker.C` has no exit
path). -/
def reaperRun (t0 : Int) (w : World) : Nat → World
  | 0 => w
  | k + 1 => cleanupStaleSweep (reaperSweepTime t0 k) (reaperRun t0 w k)

/-! ## Interleaving model of concurrent `executeCommand` calls on one
session

Each `executeCommand` call is numbered.  Its observable events on the
shared session are: acquiring `session.mu` (delve.go line 193), the
stdin write (line 199), reads of `session.stdout` by the reader
goroutine it spawns (lines 208-225), and releasing the lock on return
(deferred, line 194).  The constraints the code imposes on interleavings
are encoded in `step`:

* `lock` succeeds only when nobody holds the mutex, and each call locks
  once (sync.Mutex semantics; one Lock per call);
* `write` happens while its call holds the lock (line 199 runs between
  Lock and the deferred Unlock), once per call;
* `unlock` is performed by the holder (the deferred Unlock);
* a `read` by the goroutine of call `t` happens only after the write of
  `t` (the goroutine is spawned at line 208, after the write).  If call
  `t` returned through the `done` channel, its reads all happen before
  its return, hence while `t` still holds the lock; but if call `t`
  timed out (line 233), `executeCommand` returns and unlocks while its
  reader goroutine is still alive, so its reads may also happen at any
  later moment, whoever holds the lock.  The `timedOut` parameter says
  which calls time out. -/

/-- An observable event of call `t` on the shared session. -/
inductive Ev where
  | lock (t : Nat)
  | unlock (t : Nat)
  | write (t : Nat)
  | read (t : Nat)
  deriving Repr, DecidableEq

/-- Scheduler state: who holds `session.mu`, which calls have locked,
and which have performed their stdin write. -/
structure MState where
  lockHolder : Option Nat
  locked : List Nat
  written : List Nat
  deriving Repr, DecidableEq

/-- Initial scheduler state: lock free, nothing happened. -/
def MState.init : MState :=
  { lockHolder := none, locked := [], written := [] }

/-- Whether an event can fire in a state, and the successor state; see
the section comment for the source constraint each guard encodes. -/
def step (timedOut : Nat → Bool) (st : MState) : Ev → Option MState
  | .lock t =>
    if st.lockHolder = none ∧ t ∉ st.locked then
      some { st with lockHolder := some t, locked := t :: st.locked }
    else none
  | .write t =>
    if st.lockHolder = some t ∧ t ∉ st.written then
      some { st with written := t :: st.written }
    else none
  | .unlock t =>
    if st.lockHolder = some t then
      some { st with lockHolder := none }
    else none
  | .read t =>
    if t ∈ st.written ∧ (st.lockHolder = some t ∨ timedOut t = true) then
      some st
    else none

/-- Run a whole event trace from a state; `none` means the trace is not
a possible behaviour. -/
def runFrom (timedOut : Nat → Bool) (st : MState) : List Ev → Option MState
  | [] => some st
  | e :: tr => (step timedOut st e).bind (fun st2 => runFrom timedOut st2 tr)

/-- A trace is a possible behaviour of concurrent calls on one session. -/
def checkTrace (timedOut : Nat → Bool) (tr : List Ev) : Bool :=
  (runFrom timedOut MState.init tr).isSome

/-- The call that performed each read, in trace order. -/
def readOwners (tr : List Ev) : List Nat :=
  tr.filterMap (fun e => match e with | .read t => some t | _ => none)

/-- Whether `a` recurs after some different element, starting from an
occurrence of `a` at the head position considered. -/
def recursAfterOther (a : Nat) : List Nat → Bool
  | [] => false
  | b :: v => (decide (b ≠ a) && v.contains a) || recursAfterOther a v

/-- Whether the list has a pattern `a … b … a` with `a ≠ b`: two calls
whose elements interleave. -/
def hasInterleaving : List Nat → Bool
  | [] => false
  | a :: rest => recursAfterOther a rest || hasInterleaving rest

/-! ## Shared concrete sample values -/

/-- A sample live session: pid 7, default target, `lastUsed = 0`. -/
def sampleSession : DelveSession :=
  { pid := 7, host := "localhost", port := 2345, lastUsed := 0 }

/-- A sample world holding exactly `sampleSession` under id `d1`, its
child running and not reaped. -/
def sampleWorld : World :=
  { sessions := [("d1", sampleSession)]
    procs := [(7, { running := true, reaped := false })]
    nextPid := 8 }

/-- A trace of two `executeCommand` calls on one session in which call 1
times out with no output line arriving in its window, and its leaked
reader goroutine then steals and interleaves reads with call 2's reader:
both goroutines are blocked in `Read` on the same pipe once call 2 is in
flight, and the scheduler may deliver successive lines to either. -/
def timeoutLeakTrace : List Ev :=
  [.lock 1, .write 1, .unlock 1, .lock 2, .write 2,
   .read 1, .read 2, .read 1, .unlock 2]

/-- A pipe behaviour in which one line arrives but no prompt, and the
stream stays open past the timeout window. -/
def timeoutPipe : PipeModel :=
  { writeError := none, linesInWindow := ["hello"]
    streamEndsInWindow := false, scanError := none }

/-- A pipe behaviour delivering a data line and then a prompt line
within the window. -/
def promptPipe : PipeModel :=
  { writeError := none, linesInWindow := ["x", "(dlv) "]
    streamEndsInWindow := false, scanError := none }

/-- A `command`-action input against session `d1`. -/
def sampleCommandInput : Input :=
  { host := "", port := 0, command := "continue", sessionID := "d1"
    action := "", maxLines := 0, offset := 0 }

/-- A `command`/`disconnect` input naming a session id that is not in
`sampleWorld`. -/
def unknownSessionInput : Input :=
  { host := "", port := 0, command := "", sessionID := "nope"
    action := "", maxLines := 0, offset := 0 }

/-- An input with every optional field absent (Go zero values). -/
def noSessionInput : Input :=
  { host := "", port := 0, command := "", sessionID := ""
    action := "", maxLines := 0, offset := 0 }

/-! # Theorems -/

/-! ## Helper lemmas -/

/-- Updating the session a key points at is seen by a later lookup of
that key. -/
theorem lookupKey_updateKey_of_found {β : Type} (l : List (String × β))
    (id : String) (v w : β) (h : lookupKey l id = some w) :
    lookupKey (updateKey l id v) id = some v := by
  induction l with
  | nil => simp [lookupKey] at h
  | cons p rest ih =>
    by_cases hp : p.1 = id
    · simp [updateKey, lookupKey, hp]
    · simp only [lookupKey_cons, if_neg hp] at h
      have hstep : updateKey (p :: rest) id v = p :: updateKey rest id v := by
        simp [updateKey, hp]
      rw [hstep, lookupKey_cons, if_neg hp]
      exact ih h

/-- The session a `handleCommand` lookup finds keeps its registry slot,
now holding the struct `executeCommand` mutated. -/
theorem handleCommand_world (w : World) (input : Input) (now : Int)
    (pipe : PipeModel) (s : DelveSession)
    (hs : lookupKey w.sessions input.sessionID = some s) :
    (handleCommand w input now pipe).1 =
      { w with
          sessions := updateKey w.sessions input.sessionID
            (executeCommand s
              (if input.command = "" then "help" else input.command)
              now pipe).session } := by
  unfold handleCommand
  rw [hs]

/-- `executeCommand` mutates the session struct to `lastUsed = now` on
every path, including a failed stdin write. -/
theorem executeCommand_session (s : DelveSession) (cmd : String)
    (now : Int) (pipe : PipeModel) :
    (executeCommand s cmd now pipe).session = { s with lastUsed := now } := by
  unfold executeCommand
  cases pipe.writeError <;> rfl

/-! ## C1 -/

/-- C1 (code_bug): the claim says a removed session has no running child
and that a background reclamation task consumes the exit status so no
zombie process-table entry remains.  The code has no such task: neither
`disconnectSession` nor `cleanupStaleSessions` ever calls `cmd.Wait()`
(the only `Wait` in the file belongs to the sessionless one-shot path),
so after teardown the child is dead (`Process.Kill()` was sent) but its
exit status is never consumed, and the zombie entry persists for as long
as the server runs.  This theorem evaluates the teardown of the sample
session: the child ends not running (first half of the claim) yet
unreaped, a zombie, and the teardown sequence contains no reclamation
action at all. -/
theorem claim1_disconnect_leaves_zombie :
    disconnectSession sampleWorld "d1" =
      ({ sessions := []
         procs := [(7, { running := false, reaped := false })]
         nextPid := 8 }, .ok ())
    ∧ ProcAction.wait ∉ teardownActions
    ∧ ProcState.zombie { running := false, reaped := false } = true := by
  refine ⟨?_, by decide, rfl⟩
  rfl

/-! ## C3 -/

/-- C3 (counterexample): the claim says the child is spawned in a new
process group of its own and that teardown signals the whole group,
gracefully first.  `connectSession` uses `exec.CommandContext` with no
`SysProcAttr` (so no new process group), and teardown contains no
group-wide signal of any kind. -/
theorem claim3_counterexample :
    (connectSpawnConfig "localhost" 2345).setNewProcessGroup = false
    ∧ ProcAction.signalGroup ∉ teardownActions := by
  exact ⟨rfl, by decide⟩

/-- C3 (amended): the spawned debugger child stays in the parent process
group (`Setpgid` is never set), and teardown writes an `exit` directive
to stdin, sleeps `disconnectDelay`, closes stdin, and then
unconditionally SIGKILLs the direct child only — there is no group-wide
signal and no graceful-signal-then-escalate phase, and the kill leaves
the exit status unconsumed. -/
theorem claim3_amended :
    (∀ host : String, ∀ port : Int,
      (connectSpawnConfig host port).setNewProcessGroup = false)
    ∧ teardownActions =
        [.writeStdin "exit\n", .sleep disconnectDelay, .closeStdin,
         .killProcess]
    ∧ (∀ p : ProcState,
        applyActions p teardownActions = { running := false, reaped := p.reaped }) := by
  refine ⟨fun host port => rfl, rfl, fun p => ?_⟩
  cases p
  rfl

/-! ## C5 -/

/-- C5 (confirmed): a `connect` whose `session_id` already maps to a live
session fails with `alreadyExists` and leaves the world — registry,
process table, and pid allocator — exactly as it was: no second
subprocess is spawned and the existing session is intact. -/
theorem claim5_duplicate_connect_rejected (w : World) (id host : String)
    (port now : Int) (s : DelveSession)
    (h : lookupKey w.sessions id = some s) :
    handleConnect w id host port now = (w, .error (.alreadyExists id)) := by
  unfold handleConnect
  rw [h]

/-- C5 witness: a second `connect` for `d1` against the sample world. -/
theorem claim5_witness :
    handleConnect sampleWorld "d1" "localhost" 2345 99 =
      (sampleWorld, .error (.alreadyExists "d1")) :=
  claim5_duplicate_connect_rejected sampleWorld "d1" "localhost" 2345 99
    sampleSession (by decide)

/-! ## C6 -/

/-- C6 (confirmed): a `command` or `disconnect` naming a session id with
no live session fails with `notFound` and has no side effects: the world
— the registry mapping, every session struct and every process — is
returned unchanged. -/
theorem claim6_unknown_session_rejected (w : World) (input : Input)
    (id : String) (now : Int) (pipe : PipeModel)
    (hc : lookupKey w.sessions input.sessionID = none)
    (hd : lookupKey w.sessions id = none) :
    handleCommand w input now pipe = (w, .error (.notFound input.sessionID))
    ∧ disconnectSession w id = (w, .error (.notFound id)) := by
  constructor
  · unfold handleCommand
    rw [hc]
  · unfold disconnectSession
    rw [hd]

/-- C6 witness: `command` and `disconnect` against the unknown id `nope`
in the sample world. -/
theorem claim6_witness :
    handleCommand sampleWorld unknownSessionInput 5 timeoutPipe =
      (sampleWorld, .error (.notFound "nope"))
    ∧ disconnectSession sampleWorld "nope" =
      (sampleWorld, .error (.notFound "nope")) :=
  claim6_unknown_session_rejected sampleWorld unknownSessionInput "nope" 5
    timeoutPipe (by decide) (by decide)

/-! ## C2 -/

/-- Splitting a run across an append. -/
theorem runFrom_append (f : Nat → Bool) (l1 l2 : List Ev) (st st2 : MState) :
    runFrom f st (l1 ++ l2) = some st2 ↔
      ∃ stm, runFrom f st l1 = some stm ∧ runFrom f stm l2 = some st2 := by
  induction l1 generalizing st with
  | nil => simp [runFrom]
  | cons e l1 ih =>
    simp only [List.cons_append, runFrom]
    cases h : step f st e with
    | none => simp
    | some st3 => simp [ih]

/-- A write fires only while its call holds the lock, and leaves the
holder unchanged. -/
theorem step_write_inv (f : Nat → Bool) (st st2 : MState) (b : Nat)
    (h : step f st (.write b) = some st2) :
    st.lockHolder = some b ∧ st2.lockHolder = some b := by
  simp only [step] at h
  split at h
  · rename_i hc
    cases h
    exact ⟨hc.1, hc.1⟩
  · cases h

/-- A lock acquisition fires only when the lock is free, and makes the
acquiring call the holder. -/
theorem step_lock_inv (f : Nat → Bool) (st st2 : MState) (b : Nat)
    (h : step f st (.lock b) = some st2) :
    st.lockHolder = none ∧ st2.lockHolder = some b := by
  simp only [step] at h
  split at h
  · rename_i hc
    cases h
    exact ⟨hc.1, rfl⟩
  · cases h

/-- While a call holds the lock, no other call can lock, and no distinct
call can write. -/
theorem step_blocked (f : Nat → Bool) (st : MState) (a b : Nat)
    (hh : st.lockHolder = some a) :
    step f st (.lock b) = none ∧ (a ≠ b → step f st (.write b) = none) := by
  constructor
  · simp [step, hh]
  · intro hab
    simp [step, hh, hab]

/-- The lock holder stays the holder across any run that does not
contain its unlock. -/
theorem holder_persists (f : Nat → Bool) (a : Nat) :
    ∀ (tr : List Ev) (st st2 : MState),
      runFrom f st tr = some st2 → st.lockHolder = some a →
      Ev.unlock a ∉ tr → st2.lockHolder = some a := by
  intro tr
  induction tr with
  | nil =>
    intro st st2 h hh _
    simp only [runFrom] at h
    cases h
    exact hh
  | cons e tr ih =>
    intro st st2 h hh hmem
    simp only [runFrom] at h
    cases hstep : step f st e with
    | none =>
      rw [hstep] at h
      simp at h
    | some st3 =>
      rw [hstep] at h
      simp only [Option.some_bind] at h
      have h3 : st3.lockHolder = some a := by
        cases e with
        | lock t =>
          have hb := (step_blocked f st a t hh).1
          rw [hb] at hstep
          cases hstep
        | unlock t =>
          simp only [step] at hstep
          split at hstep
          · rename_i hc
            exfalso
            apply hmem
            rw [hh] at hc
            injection hc with hc
            rw [hc]
            exact List.mem_cons_self _ _
          · cases hstep
        | write t =>
          obtain ⟨h1, h2⟩ := step_write_inv f st st3 t hstep
          rw [hh] at h1
          injection h1 with h1
          rw [h2, ← h1]
        | read t =>
          simp only [step] at hstep
          split at hstep
          · cases hstep
            exact hh
          · cases hstep
      exact ih st3 st2 h h3 (fun hm => hmem (List.mem_cons_of_mem _ hm))

/-- If a call holds the lock at the start of a run whose later segment
begins with an event that cannot fire while it still holds, the unlock
of the holder occurs in the part before that event. -/
theorem unlock_between (f : Nat → Bool) (a : Nat) (e : Ev)
    (tr2 tr3 : List Ev) (st st2 : MState)
    (hrun : runFrom f st (tr2 ++ e :: tr3) = some st2)
    (hh : st.lockHolder = some a)
    (hblock : ∀ stm : MState, stm.lockHolder = some a → step f stm e = none) :
    Ev.unlock a ∈ tr2 := by
  by_contra hmem
  obtain ⟨stm, h1, h2⟩ := (runFrom_append f tr2 (e :: tr3) st st2).mp hrun
  have hold : stm.lockHolder = some a :=
    holder_persists f a tr2 st stm h1 hh hmem
  simp only [runFrom] at h2
  rw [hblock stm hold] at h2
  simp at h2

/-- C2 (amended): the per-session mutex does serialize the bodies of
concurrent `executeCommand` calls — in every possible behaviour, a
second call acquires the lock, and hence performs its stdin write, only
after the first call has released the lock, so stdin writes never
interleave.  (The claim fails only for stdout reads after a timeout; see
the counterexample.) -/
theorem claim2_lock_serializes (f : Nat → Bool) (st2 st3 : MState)
    (tr1 tr2 tr3 : List Ev) (a b : Nat) (hab : a ≠ b) :
    (runFrom f MState.init (tr1 ++ .write a :: (tr2 ++ .write b :: tr3)) =
        some st2 → Ev.unlock a ∈ tr2)
    ∧ (runFrom f MState.init (tr1 ++ .lock a :: (tr2 ++ .lock b :: tr3)) =
        some st3 → Ev.unlock a ∈ tr2) := by
  constructor
  · intro hrun
    obtain ⟨s1, h1, h2⟩ := (runFrom_append f tr1 _ _ _).mp hrun
    simp only [runFrom] at h2
    cases hstep : step f s1 (.write a) with
    | none =>
      rw [hstep] at h2
      simp at h2
    | some s1b =>
      rw [hstep] at h2
      simp only [Option.some_bind] at h2
      exact unlock_between f a (.write b) tr2 tr3 s1b st2 h2
        (step_write_inv f s1 s1b a hstep).2
        (fun stm hstm => (step_blocked f stm a b hstm).2 hab)
  · intro hrun
    obtain ⟨s1, h1, h2⟩ := (runFrom_append f tr1 _ _ _).mp hrun
    simp only [runFrom] at h2
    cases hstep : step f s1 (.lock a) with
    | none =>
      rw [hstep] at h2
      simp at h2
    | some s1b =>
      rw [hstep] at h2
      simp only [Option.some_bind] at h2
      exact unlock_between f a (.lock b) tr2 tr3 s1b st3 h2
        (step_lock_inv f s1 s1b a hstep).2
        (fun stm hstm => (step_blocked f stm a b hstm).1)

/-- C2 witness: in the serialized behaviour
`lock 1, write 1, unlock 1, lock 2, write 2, unlock 2` of two commands
on one session, the unlock of call 1 indeed separates the two stdin
writes. -/
theorem claim2_witness : Ev.unlock 1 ∈ ([.unlock 1, .lock 2] : List Ev) :=
  (claim2_lock_serializes (fun _ => false)
    { lockHolder := none, locked := [2, 1], written := [2, 1] } MState.init
    [.lock 1] [.unlock 1, .lock 2] [.unlock 2] 1 2 (by decide)).1 (by decide)

/-- C2 (counterexample): a possible behaviour of two commands on one
session in which call 1 times out (its timer path returns and unlocks
with the reader goroutine still alive, delve.go line 233) and the leaked
reader then interleaves stdout reads with call 2's reader — both
goroutines sit in `Read` on the same pipe, so the scheduler may deliver
successive lines to either.  This refutes the part of the claim that
says reads never interleave, including after a timed-out command. -/
theorem claim2_counterexample :
    checkTrace (fun t => t == 1) timeoutLeakTrace = true
    ∧ hasInterleaving (readOwners timeoutLeakTrace) = true := by
  exact ⟨by decide, by decide⟩

/-! ## C7 -/

/-- C7 (confirmed): the reaper ticks forever at the fixed
`cleanupInterval` of 5 minutes (consecutive sweep instants are exactly
one interval apart), and one sweep keeps exactly the sessions that are
not stale — a registry entry survives the sweep iff its idle time
`now - lastUsed` does not exceed the 30-minute `sessionMaxIdleTime` —
while every stale victim's child is terminated by the teardown sequence
the sweep applies to it. -/
theorem claim7_reaper_exactness :
    (cleanupInterval = 5 * minute ∧ sessionMaxIdleTime = 30 * minute
      ∧ ∀ t0 : Int, ∀ k : Nat,
          reaperSweepTime t0 (k + 1) - reaperSweepTime t0 k = cleanupInterval)
    ∧ (∀ now : Int, ∀ w : World, ∀ p : String × DelveSession,
        p ∈ (cleanupStaleSweep now w).sessions ↔
          p ∈ w.sessions ∧ isStale now p.2 = false)
    ∧ (∀ now : Int, ∀ s : DelveSession,
        isStale now s = decide (now - s.lastUsed > sessionMaxIdleTime))
    ∧ (∀ p : ProcState, (applyActions p teardownActions).running = false) := by
  refine ⟨⟨rfl, rfl, fun t0 k => ?_⟩, fun now w p => ?_, fun now s => rfl,
    fun p => ?_⟩
  · unfold reaperSweepTime
    push_cast
    ring
  · simp [cleanupStaleSweep, List.mem_filter, Bool.not_eq_true']
  · cases p
    rfl

/-! ## C8 -/

/-- Without a prompt line the reader loop consumes every line it gets
and reports end of stream, with the full buffer. -/
theorem readResponse_no_prompt (ls : List String)
    (h : ls.any (fun l => isPromptLine l) = false) :
    readResponse ls = (joinLines ls, .streamEnded) := by
  induction ls with
  | nil => rfl
  | cons a ls ih =>
    simp only [List.any_cons, Bool.or_eq_false_iff] at h
    simp [readResponse, h.1, joinLines, ih h.2]

/-- With every line of `pre` free of the prompt marker and `p` carrying
it, the reader loop stops at `p` and returns the buffer up to and
including `p`. -/
theorem readResponse_prompt (pre : List String) (p : String)
    (post : List String) (hpre : ∀ l ∈ pre, isPromptLine l = false)
    (hp : isPromptLine p = true) :
    readResponse (pre ++ p :: post) =
      (joinLines (pre ++ [p]), .promptFound) := by
  induction pre with
  | nil => simp [readResponse, hp, joinLines]
  | cons a pre ih =>
    have ha := hpre a (List.mem_cons_self a pre)
    have ih2 := ih (fun l hl => hpre l (List.mem_cons_of_mem a hl))
    simp [readResponse, ha, ih2, joinLines]

/-- The reader loop ends on the prompt path exactly when some line
carries the prompt marker. -/
theorem readResponse_promptFound_iff (ls : List String) :
    ((readResponse ls).2 = .promptFound) ↔
      ls.any (fun l => isPromptLine l) = true := by
  induction ls with
  | nil => simp [readResponse]
  | cons a ls ih =>
    by_cases ha : isPromptLine a
    · simp [readResponse, ha]
    · simp [readResponse, ha, ih]

/-- C8 (confirmed): for every command run through a session, the framer
writes `command + "\n"` to the subprocess stdin, then collects output
lines into a buffer; the read loop terminates successfully (prompt
path, `done <- true`) exactly when a line contains the prompt marker —
a substring match for `(dlv)` or `>` — and in that case the call
succeeds returning the buffer collected up to and including that
line. -/
theorem claim8_framer_prompt_detection (s : DelveSession) (cmd : String)
    (now : Int) (pipe : PipeModel) (hw : pipe.writeError = none) :
    (executeCommand s cmd now pipe).stdinWritten = [cmd ++ "\n"]
    ∧ (∀ l : String,
        isPromptLine l = (containsSubstr l "(dlv)" || containsSubstr l ">"))
    ∧ (((readResponse pipe.linesInWindow).2 = .promptFound)
        ↔ pipe.linesInWindow.any (fun l => isPromptLine l) = true)
    ∧ (∀ pre p post, pipe.linesInWindow = pre ++ p :: post →
        (∀ l ∈ pre, isPromptLine l = false) → isPromptLine p = true →
        (executeCommand s cmd now pipe).output = joinLines (pre ++ [p])
        ∧ (executeCommand s cmd now pipe).errMsg = none) := by
  refine ⟨by simp [executeCommand, hw], fun l => rfl,
    readResponse_promptFound_iff pipe.linesInWindow,
    fun pre p post hsplit hpre hp => ?_⟩
  have hr := readResponse_prompt pre p post hpre hp
  constructor
  · simp [executeCommand, hw, hsplit, hr]
  · simp [executeCommand, hw, hsplit, hr]

/-- C8 witness: `help` against a pipe that yields a data line and then a
prompt line. -/
theorem claim8_witness :
    (executeCommand sampleSession "help" 0 promptPipe).stdinWritten =
      ["help\n"]
    ∧ (executeCommand sampleSession "help" 0 promptPipe).output =
      joinLines ["x", "(dlv) "]
    ∧ (executeCommand sampleSession "help" 0 promptPipe).errMsg = none := by
  have h := claim8_framer_prompt_detection sampleSession "help" 0 promptPipe rfl
  have h4 := h.2.2.2 ["x"] "(dlv) " [] rfl (by decide) (by decide)
  exact ⟨h.1, h4.1, h4.2⟩

/-! ## C4 -/

/-- C4 (counterexample): call `continue` on session `d1` through a pipe
that delivers one line (`hello`) and no prompt inside the timeout
window.  The framer does return the partial buffer `hello\n` together
with the timed-out error — but `handleCommand` maps any error to a bare
failure, so what reaches the caller is only
`commandFailed "command timed out"`, a value carrying no output at all:
the partial output is discarded, refuting the claim that it is returned
to the caller as a partial result. -/
theorem claim4_counterexample :
    (executeCommand sampleSession "continue" 5 timeoutPipe).output =
      "hello\n"
    ∧ (executeCommand sampleSession "continue" 5 timeoutPipe).errMsg =
      some "command timed out"
    ∧ (handleCommand sampleWorld sampleCommandInput 5 timeoutPipe).2 =
      .error (.commandFailed "command timed out") := by
  refine ⟨rfl, rfl, rfl⟩

/-- C4 (amended): when the response does not complete within the command
timeout, the framer (`executeCommand`) returns the partially collected
buffer together with the timed-out error, and the session stays in the
registry, alive and usable (with its `lastUsed` bumped); but
`handleCommand` discards the partial output whenever an error comes
back, returning only the wrapped error to the caller.  No retry happens
anywhere in the core. -/
theorem claim4_timeout_partial_from_framer (w : World) (input : Input)
    (s : DelveSession) (now : Int) (pipe : PipeModel)
    (hs : lookupKey w.sessions input.sessionID = some s)
    (hw : pipe.writeError = none)
    (hnp : pipe.linesInWindow.any (fun l => isPromptLine l) = false)
    (hopen : pipe.streamEndsInWindow = false) :
    (executeCommand s (if input.command = "" then "help" else input.command)
        now pipe).errMsg = some "command timed out"
    ∧ (executeCommand s (if input.command = "" then "help" else input.command)
        now pipe).output = joinLines pipe.linesInWindow
    ∧ (handleCommand w input now pipe).2 =
        .error (.commandFailed "command timed out")
    ∧ lookupKey (handleCommand w input now pipe).1.sessions input.sessionID
        = some { s with lastUsed := now } := by
  have hr := readResponse_no_prompt pipe.linesInWindow hnp
  have hexe : ∀ c : String,
      (executeCommand s c now pipe).errMsg = some "command timed out" := by
    intro c
    simp [executeCommand, hw, hr, hopen]
  refine ⟨hexe _, by simp [executeCommand, hw, hr], ?_, ?_⟩
  · unfold handleCommand
    rw [hs]
    simp [hexe]
  · have h4 := lookupKey_updateKey_of_found w.sessions input.sessionID
      (executeCommand s
        (if input.command = "" then "help" else input.command) now pipe).session
      s hs
    rw [executeCommand_session] at h4
    rw [handleCommand_world w input now pipe s hs]
    simp only [executeCommand_session]
    exact h4

/-- C4 witness: the timed-out `continue` on `d1` leaves the session
registered with `lastUsed = 5`. -/
theorem claim4_witness :
    (executeCommand sampleSession "continue" 5 timeoutPipe).errMsg =
      some "command timed out"
    ∧ lookupKey
        (handleCommand sampleWorld sampleCommandInput 5 timeoutPipe).1.sessions
        "d1" = some { sampleSession with lastUsed := 5 } := by
  have h := claim4_timeout_partial_from_framer sampleWorld sampleCommandInput
    sampleSession 5 timeoutPipe (by decide) rfl (by decide) rfl
  exact ⟨h.1, h.2.2.2⟩

/-! ## C9 -/

/-- C9 (counterexample): with `session_id` absent the handler does not
use the caller connection identity as a session key — it routes to the
sessionless single-command path, which touches no registry at all.  The
defaults are applied, but the request is not a session operation keyed
by the caller. -/
theorem claim9_counterexample :
    delveHandlerRoute "caller1" noSessionInput =
      .singleCommand "localhost" 2345
    ∧ delveHandlerRoute "caller1" noSessionInput ≠
      .sessionOp "caller1" "localhost" 2345 "command" := by
  exact ⟨rfl, by decide⟩

/-- C9 (amended): an absent `host` defaults to `localhost`, an absent
`port` to 2345 and an absent `action` to `command`; the caller
connection identity is ignored entirely (routing is independent of it),
and a request without `session_id` goes to the sessionless
single-command path instead of being keyed by the caller identity. -/
theorem claim9_defaults_and_routing (c c2 : String) (i : Input)
    (sid host action : String) (port : Int) :
    delveHandlerRoute c i = delveHandlerRoute c2 i
    ∧ (sid ≠ "" →
        delveHandlerRoute c
          { host := "", port := 0, command := "", sessionID := sid
            action := "", maxLines := 0, offset := 0 }
          = .sessionOp sid "localhost" 2345 "command")
    ∧ (i.sessionID = "" →
        delveHandlerRoute c i =
          .singleCommand (if i.host = "" then "localhost" else i.host)
            (if i.port = 0 then 2345 else i.port))
    ∧ (sid ≠ "" → host ≠ "" → port ≠ 0 → action ≠ "" →
        delveHandlerRoute c
          { host := host, port := port, command := "", sessionID := sid
            action := action, maxLines := 0, offset := 0 }
          = .sessionOp sid host port action) := by
  refine ⟨rfl, fun h => ?_, fun h => ?_, fun h1 h2 h3 h4 => ?_⟩
  · simp [delveHandlerRoute, h]
  · simp [delveHandlerRoute, h]
  · simp [delveHandlerRoute, h1, h2, h3, h4]

/-- C9 witness: routing at concrete inputs — identical for two distinct
callers, defaults filled in, explicit values respected. -/
theorem claim9_witness :
    delveHandlerRoute "A" noSessionInput = delveHandlerRoute "B" noSessionInput
    ∧ delveHandlerRoute "A"
        { host := "", port := 0, command := "", sessionID := "d1"
          action := "", maxLines := 0, offset := 0 }
        = .sessionOp "d1" "localhost" 2345 "command"
    ∧ delveHandlerRoute "A" noSessionInput = .singleCommand "localhost" 2345
    ∧ delveHandlerRoute "A"
        { host := "remote", port := 4000, command := "", sessionID := "d1"
          action := "connect", maxLines := 0, offset := 0 }
        = .sessionOp "d1" "remote" 4000 "connect" := by
  have h := claim9_defaults_and_routing "A" "B" noSessionInput "d1" "remote"
    "connect" 4000
  exact ⟨h.1, h.2.1 (by decide), h.2.2.1 rfl,
    h.2.2.2 (by decide) (by decide) (by decide) (by decide)⟩

/-! ## C10 -/

/-- C10 (confirmed): `executeCommand` sets the session `lastUsed` to the
current time as its first step — before the stdin write, and on every
outcome including write failure and timeout (the mutated struct is what
the registry keeps pointing at) — so a session whose every command
attempt fails is still not stale at any sweep that happens within the
idle threshold of the last attempt, and the sweep keeps it. -/
theorem claim10_lastUsed_always_bumped (w : World) (input : Input)
    (s : DelveSession) (cmd : String) (id : String) (now now2 : Int)
    (pipe : PipeModel)
    (hs : lookupKey w.sessions input.sessionID = some s)
    (hfresh : now2 - now ≤ sessionMaxIdleTime) :
    (executeCommand s cmd now pipe).session.lastUsed = now
    ∧ lookupKey (handleCommand w input now pipe).1.sessions input.sessionID
        = some { s with lastUsed := now }
    ∧ isStale now2 { s with lastUsed := now } = false
    ∧ (∀ w3 : World, (id, { s with lastUsed := now }) ∈ w3.sessions →
        (id, { s with lastUsed := now }) ∈
          (cleanupStaleSweep now2 w3).sessions) := by
  have hstale : isStale now2 { s with lastUsed := now } = false := by
    simp only [isStale, decide_eq_false_iff_not]
    exact not_lt.mpr hfresh
  refine ⟨by rw [executeCommand_session], ?_, hstale, fun w3 hmem => ?_⟩
  · have h4 := lookupKey_updateKey_of_found w.sessions input.sessionID
      (executeCommand s
        (if input.command = "" then "help" else input.command) now pipe).session
      s hs
    rw [executeCommand_session] at h4
    rw [handleCommand_world w input now pipe s hs]
    simp only [executeCommand_session]
    exact h4
  · simp only [cleanupStaleSweep, List.mem_filter]
    exact ⟨hmem, by simp [hstale]⟩

/-- C10 witness: the timed-out `continue` at time 5 keeps `d1` fresh for
a sweep at time 10. -/
theorem claim10_witness :
    (executeCommand sampleSession "continue" 5 timeoutPipe).session.lastUsed = 5
    ∧ isStale 10 { sampleSession with lastUsed := 5 } = false
    ∧ ("d1", { sampleSession with lastUsed := 5 }) ∈
        (cleanupStaleSweep 10
          { sessions := [("d1", { sampleSession with lastUsed := 5 })]
            procs := [], nextPid := 0 }).sessions := by
  have h := claim10_lastUsed_always_bumped sampleWorld sampleCommandInput
    sampleSession "continue" "d1" 5 10 timeoutPipe (by decide) (by decide)
  exact ⟨h.1, h.2.2.1, h.2.2.2 _ (by decide)⟩

end Delve
